import Mathlib

/-!
Shallow embedding of the StoryTree core: the three-field workflow state
machine (stage / status / terminus), the effective-status computation, the
closure-table orphan scan, the lineage-aware id comparator, and the tree
filter visibility computation.  Each definition is translated from the
repository source (file and function named in its doc comment).
-/

namespace StoryTree

/-- `STAGE_VALUES` in `xstory.py` (line 81). -/
def STAGE_VALUES : List String :=
  ["epic", "concept", "planning", "implementing", "testing", "releasing"]

/-- `STATUS_VALUES_HOLDS` in `xstory.py` (line 82). -/
def STATUS_VALUES_HOLDS : List String :=
  ["escalated", "paused", "blocked", "broken", "polish", "conflicted", "wishlisted", "queued"]

/-- `TERMINUS_VALUES` in `xstory.py` (line 83). -/
def TERMINUS_VALUES : List String :=
  ["shipped", "rejected", "infeasible", "duplicative", "legacy", "deprecated", "archived"]

/-- The columns of a `story_nodes` row that the state-changing writes read or
update.  `terminus` is nullable (`Option`); the other columns are `NOT NULL`
per the schema in the migration scripts. -/
structure NodeRow where
  id : String
  stage : String
  status : String
  terminus : Option String
  notes : String
  human_review : Nat
  updated_at : String
deriving DecidableEq

/-- A single-quote character, used when rebuilding the audit-note strings the
Python code produces with f-strings. -/
def sq : String := String.singleton (Char.ofNat 39)

/-- The audit-note entry built in `_update_node_status_in_db` (`xstory.py`
lines 3211-3214): a timestamped line, with the free-text note appended after
a colon when it is non-empty (Python truthiness on the string). -/
def noteEntry (timestamp new_status notes : String) : String :=
  if notes ≠ "" then
    "[" ++ timestamp ++ "] Status changed to " ++ sq ++ new_status ++ sq ++ ": " ++ notes
  else
    "[" ++ timestamp ++ "] Status changed to " ++ sq ++ new_status ++ sq

/-- Appending the new entry to the current notes (`xstory.py` lines 3216-3219). -/
def updatedNotes (current entry : String) : String :=
  if current ≠ "" then current ++ "\n" ++ entry else entry

/-- The terminus-branch `UPDATE` of `_update_node_status_in_db`
(`xstory.py` lines 3226-3233). -/
def terminusUpdate (r : NodeRow) (new_status un ts : String) : NodeRow :=
  { r with terminus := some new_status, status := "ready", notes := un, updated_at := ts }

/-- The status-branch `UPDATE` of `_update_node_status_in_db`
(`xstory.py` lines 3234-3241). -/
def statusUpdate (r : NodeRow) (new_status un ts : String) : NodeRow :=
  { r with status := new_status, terminus := none, notes := un, updated_at := ts }

/-- The stage-branch `UPDATE` of `_update_node_status_in_db`
(`xstory.py` lines 3242-3249). -/
def stageUpdate (r : NodeRow) (new_status un ts : String) : NodeRow :=
  { r with stage := new_status, status := "ready", terminus := none, updated_at := ts, notes := un }

/-- The `updated_notes` value computed before branching in
`_update_node_status_in_db` (`xstory.py` lines 3204-3219): the current notes
of the addressed row (empty when the `SELECT` finds nothing) with the new
entry appended. -/
def dbNewNotes (store : List NodeRow) (node_id new_status notes ts : String) : String :=
  updatedNotes
    (match store.find? (fun r => r.id == node_id) with
     | some r => r.notes
     | none => "")
    (noteEntry ts new_status notes)

/-- Embedding of `_update_node_status_in_db` (`xstory.py` lines 3193-3262).
The store is the list of `story_nodes` rows; the initial `SELECT notes` is
inside `dbNewNotes`, the three `UPDATE ... WHERE id = ?` statements are maps
touching the rows whose id matches, and the final `else: raise ValueError` is
the error case (caught by the caller, which leaves the database untouched). -/
def updateNodeStatusInDb (store : List NodeRow) (node_id new_status notes ts : String) :
    Except String (List NodeRow) :=
  if new_status ∈ TERMINUS_VALUES then
    Except.ok (store.map fun r =>
      if r.id == node_id then
        terminusUpdate r new_status (dbNewNotes store node_id new_status notes ts) ts
      else r)
  else if new_status ∈ STATUS_VALUES_HOLDS then
    Except.ok (store.map fun r =>
      if r.id == node_id then
        statusUpdate r new_status (dbNewNotes store node_id new_status notes ts) ts
      else r)
  else if new_status ∈ STAGE_VALUES then
    Except.ok (store.map fun r =>
      if r.id == node_id then
        stageUpdate r new_status (dbNewNotes store node_id new_status notes ts) ts
      else r)
  else
    Except.error ("Unknown status value: " ++ new_status)

/-- The effective-status expression of `_load_nodes_from_db` (`xstory.py`
line 3475): `COALESCE(terminus, CASE WHEN status = 'ready' THEN NULL ELSE
status END, stage)`.  `stage` and `status` are `NOT NULL` columns. -/
def effective_status (terminus : Option String) (status stage : String) : String :=
  match terminus with
  | some t => t
  | none => if status = "ready" then stage else status

/-- The display-status expression of `list_orphans.py` (line 38):
`terminus or (status if status != 'ready' else None) or stage`, with Python
truthiness (`None` and the empty string are falsy). -/
def display_status (terminus : Option String) (status stage : String) : String :=
  let mid : Option String := if status ≠ "ready" then some status else none
  let fallback :=
    match mid with
    | some m => if m ≠ "" then m else stage
    | none => stage
  match terminus with
  | some t => if t ≠ "" then t else fallback
  | none => fallback

/-- `VALID_STAGES` in `code-verification/update_status.py` (lines 27-30). -/
def VALID_STAGES : List String :=
  ["concept", "approved", "planned", "active",
   "reviewing", "verifying", "implemented", "ready", "polish", "released"]

/-- The verification-note entry built in `update_status.py` (line 61). -/
def cliNoteEntry (ts notes : String) : String :=
  "[Verification " ++ ts ++ "] " ++ notes

/-- Note rebuilding in `update_status.py` (lines 58-63): the entry is only
appended when `notes` is truthy (not `None` and not empty). -/
def cliNewNotes (existing : String) (notes : Option String) (ts : String) : String :=
  match notes with
  | some n =>
      if n ≠ "" then existing ++ (if existing ≠ "" then "\n" else "") ++ cliNoteEntry ts n
      else existing
  | none => existing

/-- Embedding of `update_status` in `code-verification/update_status.py`
(lines 33-93).  An invalid stage or a missing story id yields an error dict
before any `UPDATE`; the `hold` branch sets `status = 'escalated'` and
`human_review = 1` keeping the stage; the normal branch sets the stage and
forces `status = 'ready'`, `human_review = 0`.  Neither branch touches the
`terminus` column. -/
def update_status (store : List NodeRow) (story_id new_stage : String)
    (notes : Option String) (hold : Bool) (ts : String) :
    Except String (List NodeRow) :=
  if new_stage ∉ VALID_STAGES then
    Except.error ("Invalid stage: " ++ new_stage)
  else
    match store.find? (fun r => r.id == story_id) with
    | none => Except.error ("Story " ++ story_id ++ " not found")
    | some row =>
      if hold then
        Except.ok (store.map fun r =>
          if r.id == story_id then
            { r with status := "escalated", human_review := 1,
                     notes := cliNewNotes row.notes notes ts, updated_at := ts }
          else r)
      else
        Except.ok (store.map fun r =>
          if r.id == story_id then
            { r with stage := new_stage, status := "ready", human_review := 0,
                     notes := cliNewNotes row.notes notes ts, updated_at := ts }
          else r)

/-- Python `str.strip()` restricted to the ASCII whitespace characters that
Lean's `Char.isWhitespace` recognises; the note strings handled by the GUI
dialog are ordinary text, where the two agree. -/
def pyStrip (s : String) : String :=
  ⟨((s.data.dropWhile Char.isWhitespace).reverse.dropWhile Char.isWhitespace).reverse⟩

/-- `StatusChangeDialog._on_confirm` (`xstory.py` lines 500-514): the entered
text is stripped; when notes are mandatory and the stripped text is empty the
dialog shows a warning and stays open (modelled as `none`), otherwise the
dialog is accepted with the stripped text. -/
def dialogConfirm (mandatory : Bool) (raw : String) : Option String :=
  let notes := pyStrip raw
  if mandatory && (notes == "") then none else some notes

/-- Embedding of `_change_node_status` (`xstory.py` lines 3179-3192): no-op
when the node id is unknown, notes are mandatory exactly for the target
`polish`, and the database update only runs when the dialog was accepted.
A database-layer error leaves the store unchanged (the GUI only shows a
dialog). -/
def changeNodeStatus (store : List NodeRow) (node_id new_status raw ts : String) :
    List NodeRow :=
  match store.find? (fun r => r.id == node_id) with
  | none => store
  | some _ =>
    let mandatory := new_status == "polish"
    match dialogConfirm mandatory raw with
    | none => store
    | some notes =>
      match updateNodeStatusInDb store node_id new_status
          (if notes ≠ "" then notes else "") ts with
      | Except.ok newStore => newStore
      | Except.error _ => store

/-- The columns of a `story_nodes` row that `list_orphans.py` selects. -/
structure ONode where
  story_path : String
  title : String
  stage : String
  status : String
  terminus : Option String
deriving DecidableEq

/-- A `story_paths` closure-table row. -/
structure PathRow where
  ancestor_id : String
  descendant_id : String
  depth : Nat
deriving DecidableEq

/-- The two tables the arborist scripts query. -/
structure OrphanStore where
  nodes : List ONode
  paths : List PathRow

/-- Stable insertion used to embed `ORDER BY sn.story_path` (ascending binary
collation, which agrees with codepoint order on the id strings). -/
def insertByPath (x : ONode) : List ONode → List ONode
  | [] => [x]
  | y :: ys =>
      if decide (y.story_path < x.story_path) then y :: insertByPath x ys
      else x :: y :: ys

/-- Sort rows by `story_path` ascending. -/
def sortByPath (l : List ONode) : List ONode := l.foldr insertByPath []

/-- The orphan query of `list_orphans.py` (lines 16-24): non-root nodes with
no `story_paths` row at all in which they appear as `descendant_id`, ordered
by `story_path`. -/
def orphanRows (st : OrphanStore) : List ONode :=
  sortByPath (st.nodes.filter (fun n =>
    (n.story_path != "root") && !(st.paths.any (fun pr => pr.descendant_id == n.story_path))))

/-- The ids of the orphan rows. -/
def listOrphansIds (st : OrphanStore) : List String :=
  (orphanRows st).map (fun n => n.story_path)

/-- The process exit code of `list_orphans.py` `main` (lines 12-41): both the
empty branch (line 30) and the found branch (line 41) return 0. -/
def listOrphansMain (st : OrphanStore) (ids_only : Bool) : Nat :=
  if (orphanRows st).isEmpty then 0
  else
    let _ := ids_only
    0

/-- A categorized issue report, the shape `validate_tree_structure` returns
(`tree_health.py` line 20); the validator itself lives outside `src/`, so the
exit-code logic is proved for an arbitrary report. -/
def totalIssues (issues : List (String × List String)) : Nat :=
  (issues.map (fun c => c.2.length)).sum

/-- The process exit code of `tree_health.py` `main` (line 135):
`0 if total_issues == 0 else 1`. -/
def treeHealthMain (issues : List (String × List String)) : Nat :=
  if totalIssues issues = 0 then 0 else 1

/-- Digit run with optional single underscores between digits, as accepted by
Python `int` after the sign (restricted to ASCII digits, which is all the id
segments contain).  The head character must be a digit; an underscore must be
followed by a digit. -/
def pyDigitsAux : List Char → Nat → Option Nat
  | [], acc => some acc
  | c :: rest, acc =>
      if c.isDigit then pyDigitsAux rest (acc * 10 + (c.toNat - 48))
      else if c = Char.ofNat 95 then
        match rest with
        | d :: _ => if d.isDigit then pyDigitsAux rest acc else none
        | [] => none
      else none

/-- Parse a non-empty digit/underscore run (no sign). -/
def pyDigitsRun (l : List Char) : Option Nat :=
  match l with
  | [] => none
  | c :: _ => if c.isDigit then pyDigitsAux l 0 else none

/-- Python `int(s)` on a string segment: surrounding whitespace stripped,
optional sign, then a digit run.  Failure is the `ValueError` case. -/
def pyIntChars (l : List Char) : Option Int :=
  let t := ((l.dropWhile Char.isWhitespace).reverse.dropWhile Char.isWhitespace).reverse
  match t with
  | [] => none
  | c :: rest =>
      if c = Char.ofNat 45 then (pyDigitsRun rest).map (fun n => -(n : Int))
      else if c = Char.ofNat 43 then (pyDigitsRun rest).map (fun n => (n : Int))
      else (pyDigitsRun (c :: rest)).map (fun n => (n : Int))

/-- Python `node_id.split(".")`: splitting on every dot, keeping empty
segments (an empty input gives one empty segment). -/
def splitDot : List Char → List (List Char)
  | [] => [[]]
  | c :: rest =>
      let r := splitDot rest
      if c = Char.ofNat 46 then [] :: r
      else
        match r with
        | [] => [[c]]
        | h :: t => (c :: h) :: t

/-- `tuple(int(p) for p in node_id.split("."))`, with `none` when any segment
raises `ValueError`. -/
def segsInt (node_id : String) : Option (List Int) :=
  (splitDot node_id.data).mapM pyIntChars

/-- The three shapes of sort key `_sort_key` returns (`xstory.py` lines
3527-3535): `(0,)` for root, `(1,) + numeric tuple`, `(2, node_id)`. -/
inductive SKey where
  | rootKey : SKey
  | nums : List Int → SKey
  | strk : String → SKey
deriving DecidableEq

/-- Python lexicographic comparison of two integer tuples: a strict prefix
sorts first. -/
def listIntLt : List Int → List Int → Bool
  | [], [] => false
  | [], _ :: _ => true
  | _ :: _, [] => false
  | a :: as, b :: bs => if a < b then true else if b < a then false else listIntLt as bs

/-- Python `<` on the sort-key tuples: the first component (0, 1 or 2)
dominates, then the numeric tuple or the id string. -/
def sKeyLt : SKey → SKey → Bool
  | SKey.rootKey, SKey.rootKey => false
  | SKey.rootKey, SKey.nums _ => true
  | SKey.rootKey, SKey.strk _ => true
  | SKey.nums _, SKey.rootKey => false
  | SKey.nums a, SKey.nums b => listIntLt a b
  | SKey.nums _, SKey.strk _ => true
  | SKey.strk _, SKey.rootKey => false
  | SKey.strk _, SKey.nums _ => false
  | SKey.strk a, SKey.strk b => decide (a < b)

/-- Embedding of `_sort_key` (`xstory.py` lines 3527-3535). -/
def sortKey (node_id : String) : SKey :=
  if node_id = "root" then SKey.rootKey
  else
    match segsInt node_id with
    | some l => SKey.nums l
    | none => SKey.strk node_id

/-- Stable insertion for `list.sort(key=_sort_key)`. -/
def insertByKey (x : String) : List String → List String
  | [] => [x]
  | y :: ys => if sKeyLt (sortKey y) (sortKey x) then y :: insertByKey x ys else x :: y :: ys

/-- Sibling sort by `_sort_key` (`xstory.py` line 3525: children sorted with
the lineage-aware key). -/
def sortIds (l : List String) : List String := l.foldr insertByKey []

/-- The fields of an in-memory `StoryNode` that `_apply_filters` and
`_get_ancestors` read. -/
structure VNode where
  id : String
  parent_id : Option String
  stage : String
  status : String
  terminus : Option String
deriving DecidableEq

/-- The checkbox state feeding `_apply_filters` (`xstory.py` lines
3557-3563): the checked entries of each category column. -/
structure FilterConfig where
  checkedStages : List String
  checkedStatuses : List String
  checkedTermini : List String

/-- A Python-truthy parent pointer: `None` and the empty string both end the
`while node and node.parent_id` walk. -/
def truthyParent (n : VNode) : Option String :=
  match n.parent_id with
  | some p => if p = "" then none else some p
  | none => none

/-- `nodes.get(id)` on the in-memory dict, keyed by node id. -/
def findNode (store : List VNode) (i : String) : Option VNode :=
  store.find? (fun r => r.id == i)

/-- `node_matches_filter` inside `_apply_filters` (`xstory.py` lines
3569-3590): the stage must be checked, and then either the status or the
terminus column must match, with `ready` and `active` as the special
"no hold" / "no terminus" checkboxes. -/
def nodeMatchesFilter (cfg : FilterConfig) (n : VNode) : Bool :=
  if n.stage ∈ cfg.checkedStages then
    let show_ready := "ready" ∈ cfg.checkedStatuses
    let show_active := "active" ∈ cfg.checkedTermini
    let status_ok :=
      if n.status ≠ "" ∧ n.status ≠ "ready" ∧ n.status ∈ cfg.checkedStatuses then true
      else if show_ready ∧ (n.status = "" ∨ n.status = "ready") then true
      else false
    let term_ok :=
      match n.terminus with
      | some t =>
          if t ≠ "" ∧ t ∈ cfg.checkedTermini then true
          else if show_active ∧ t = "" then true
          else false
      | none => if show_active then true else false
    status_ok || term_ok
  else false

/-- The fuelled embedding of the `while node and node.parent_id` loop of
`_get_ancestors` (`xstory.py` lines 3539-3545).  The Python loop carries no
fuel; under the well-formedness hypotheses used below the result is
independent of any fuel large enough, which is how the embedding is used. -/
def getAncestorsAux (store : List VNode) : Option VNode → Nat → List String
  | _, 0 => []
  | none, _ + 1 => []
  | some n, fuel + 1 =>
      match truthyParent n with
      | none => []
      | some p => p :: getAncestorsAux store (findNode store p) fuel

/-- `_get_ancestors(node_id)` as the set (list) of ancestor ids collected by
the walk. -/
def getAncestors (store : List VNode) (i : String) : List String :=
  getAncestorsAux store (findNode store i) (store.length + 1)

/-- Step 1 of `_apply_filters` (`xstory.py` lines 3592-3594): the ids of the
nodes that directly match the filter. -/
def matchingIds (store : List VNode) (cfg : FilterConfig) : List String :=
  (store.filter (fun n => nodeMatchesFilter cfg n)).map (fun n => n.id)

/-- Step 2 of `_apply_filters` (`xstory.py` lines 3596-3599): the union of
the ancestor sets of all matching nodes. -/
def ancestorIds (store : List VNode) (cfg : FilterConfig) : List String :=
  (matchingIds store cfg).foldr (fun i acc => getAncestors store i ++ acc) []

/-- `visible_nodes = matching_nodes | ancestor_nodes` (`xstory.py` line 3602). -/
def visibleIds (store : List VNode) (cfg : FilterConfig) : List String :=
  matchingIds store cfg ++ ancestorIds store cfg

/-- `faded_nodes = ancestor_nodes - matching_nodes` (`xstory.py` line 3604). -/
def fadedIds (store : List VNode) (cfg : FilterConfig) : List String :=
  (ancestorIds store cfg).filter (fun i => i ∉ matchingIds store cfg)

/-- A concrete row used by the witnesses below. -/
def row0 : NodeRow :=
  { id := "1", stage := "testing", status := "escalated", terminus := none,
    notes := "", human_review := 0, updated_at := "" }

theorem forall2_map_self {α β : Type} (f : α → β) (P : α → β → Prop) (l : List α)
    (h : ∀ a ∈ l, P a (f a)) : List.Forall₂ P l (l.map f) := by
  induction l with
  | nil => exact List.Forall₂.nil
  | cons x xs ih =>
      exact List.Forall₂.cons (h x (by simp)) (ih fun a ha => h a (by simp [ha]))

/-- C1: for every node, the effective status is a pure function of
(terminus, status, stage): it is the terminus when that is non-null, else the
status when the status is not `ready`, else the stage; and the Python
display-status expression of `list_orphans.py` computes the same value as the
SQL `COALESCE` of `xstory.py` whenever the fields carry values from the
closed vocabularies. -/
theorem effective_status_priority
    (terminus : Option String) (status stage : String)
    (hterm : terminus = none ∨ ∃ t, t ∈ TERMINUS_VALUES ∧ terminus = some t)
    (hstat : status = "ready" ∨ status ∈ STATUS_VALUES_HOLDS) :
    (∀ t, terminus = some t → effective_status terminus status stage = t) ∧
    (terminus = none → status ≠ "ready" → effective_status terminus status stage = status) ∧
    (terminus = none → status = "ready" → effective_status terminus status stage = stage) ∧
    display_status terminus status stage = effective_status terminus status stage := by
  have hsne : status ≠ "" := by
    rcases hstat with h | h
    · rw [h]; intro he; exact absurd he (by decide)
    · intro he; rw [he] at h; exact absurd h (by decide)
  refine ⟨?_, ?_, ?_, ?_⟩
  · intro t ht; simp [effective_status, ht]
  · intro h1 h2; simp [effective_status, h1, h2]
  · intro h1 h2; simp [effective_status, h1, h2]
  · rcases hterm with h | ⟨t, htmem, h⟩
    · subst h
      by_cases hr : status = "ready" <;>
        simp [display_status, effective_status, hr, hsne]
    · subst h
      have htne : t ≠ "" := by
        intro he; rw [he] at htmem; exact absurd htmem (by decide)
      simp [display_status, effective_status, htne]

theorem effective_status_priority_witness :
    display_status (some "shipped") "escalated" "testing" =
      effective_status (some "shipped") "escalated" "testing" :=
  (effective_status_priority (some "shipped") "escalated" "testing"
    (Or.inr ⟨"shipped", by decide, rfl⟩) (Or.inr (by decide))).2.2.2

/-- C2: a transition whose target is in the terminus category rewrites the
addressed row to have `terminus` equal to the target and `status` forced to
`ready` whatever it was, leaves its `stage` unchanged, and leaves every other
row untouched. -/
theorem terminus_transition_fields
    (store : List NodeRow) (node_id new_status notes ts : String)
    (h : new_status ∈ TERMINUS_VALUES) :
    ∃ store', updateNodeStatusInDb store node_id new_status notes ts = Except.ok store' ∧
      List.Forall₂ (fun r r' : NodeRow =>
        (r.id = node_id → r'.terminus = some new_status ∧ r'.status = "ready" ∧
          r'.stage = r.stage) ∧
        (r.id ≠ node_id → r' = r)) store store' := by
  refine ⟨_, by unfold updateNodeStatusInDb; rw [if_pos h], ?_⟩
  apply forall2_map_self
  intro r _
  constructor
  · intro hid
    have hb : (r.id == node_id) = true := beq_iff_eq.mpr hid
    simp [hb, terminusUpdate]
  · intro hid
    have hb : (r.id == node_id) = false := by
      simpa using hid
    simp [hb]

theorem terminus_transition_fields_witness :
    ∃ store', updateNodeStatusInDb [row0] "1" "shipped" "" "T" = Except.ok store' ∧
      List.Forall₂ (fun r r' : NodeRow =>
        (r.id = "1" → r'.terminus = some "shipped" ∧ r'.status = "ready" ∧
          r'.stage = r.stage) ∧
        (r.id ≠ "1" → r' = r)) [row0] store' :=
  terminus_transition_fields [row0] "1" "shipped" "" "T" (by decide)

/-- A concrete shipped row used by the counterexamples below. -/
def rowShipped : NodeRow :=
  { id := "1", stage := "testing", status := "ready", terminus := some "shipped",
    notes := "", human_review := 0, updated_at := "" }

theorem update_polish_eq (store : List NodeRow) (node_id notes ts : String) :
    updateNodeStatusInDb store node_id "polish" notes ts =
      Except.ok (store.map fun r =>
        if r.id == node_id then
          statusUpdate r "polish" (dbNewNotes store node_id "polish" notes ts) ts
        else r) := by
  unfold updateNodeStatusInDb
  rw [if_neg (by decide), if_pos (by decide)]

/-- C5: a transition to `polish` with an empty (or whitespace-only, or
absent) note is rejected by the mandatory-note check and the store is
returned unchanged; when the stripped note is non-empty the database write is
performed with that note. -/
theorem polish_requires_note
    (store : List NodeRow) (node_id raw ts : String) :
    (pyStrip raw = "" → changeNodeStatus store node_id "polish" raw ts = store) ∧
    (∀ row, store.find? (fun r => r.id == node_id) = some row → pyStrip raw ≠ "" →
      ∃ store', updateNodeStatusInDb store node_id "polish" (pyStrip raw) ts =
          Except.ok store' ∧
        changeNodeStatus store node_id "polish" raw ts = store') := by
  constructor
  · intro hempty
    unfold changeNodeStatus
    cases hfind : store.find? (fun r => r.id == node_id) with
    | none => rfl
    | some row => simp [dialogConfirm, hempty]
  · intro row hfind hne
    have hb : (pyStrip raw == "") = false := by simpa using hne
    refine ⟨_, update_polish_eq store node_id (pyStrip raw) ts, ?_⟩
    unfold changeNodeStatus
    rw [hfind]
    simp only [dialogConfirm, hb, Bool.and_false, if_neg Bool.false_ne_true]
    rw [if_pos hne, update_polish_eq]

theorem polish_requires_note_witness :
    changeNodeStatus [row0] "1" "polish" "   " "T" = [row0] :=
  (polish_requires_note [row0] "1" "   " "T").1 (by decide)

/-- C6: applying the same valid target state twice in a row leaves the
stage, status and terminus of every row the same as applying it once. -/
theorem transition_idempotent
    (store : List NodeRow) (node_id new_status n1 n2 ts1 ts2 : String)
    (h : new_status ∈ STAGE_VALUES ∨ new_status ∈ STATUS_VALUES_HOLDS ∨
         new_status ∈ TERMINUS_VALUES) :
    ∃ s1 s2, updateNodeStatusInDb store node_id new_status n1 ts1 = Except.ok s1 ∧
      updateNodeStatusInDb s1 node_id new_status n2 ts2 = Except.ok s2 ∧
      List.Forall₂ (fun a b : NodeRow =>
        a.stage = b.stage ∧ a.status = b.status ∧ a.terminus = b.terminus) s1 s2 := by
  rcases h with h | h | h
  · have h1 : new_status ∉ TERMINUS_VALUES := by
      have : ∀ s ∈ STAGE_VALUES, s ∉ TERMINUS_VALUES := by decide
      exact this _ h
    have h2 : new_status ∉ STATUS_VALUES_HOLDS := by
      have : ∀ s ∈ STAGE_VALUES, s ∉ STATUS_VALUES_HOLDS := by decide
      exact this _ h
    refine ⟨_, _, by unfold updateNodeStatusInDb; rw [if_neg h1, if_neg h2, if_pos h],
      by unfold updateNodeStatusInDb; rw [if_neg h1, if_neg h2, if_pos h], ?_⟩
    apply forall2_map_self
    intro a ha
    rcases List.mem_map.mp ha with ⟨r, _, rfl⟩
    cases hrb : (r.id == node_id) with
    | false => simp [hrb]
    | true => simp [hrb, stageUpdate]
  · have h1 : new_status ∉ TERMINUS_VALUES := by
      have : ∀ s ∈ STATUS_VALUES_HOLDS, s ∉ TERMINUS_VALUES := by decide
      exact this _ h
    refine ⟨_, _, by unfold updateNodeStatusInDb; rw [if_neg h1, if_pos h],
      by unfold updateNodeStatusInDb; rw [if_neg h1, if_pos h], ?_⟩
    apply forall2_map_self
    intro a ha
    rcases List.mem_map.mp ha with ⟨r, _, rfl⟩
    cases hrb : (r.id == node_id) with
    | false => simp [hrb]
    | true => simp [hrb, statusUpdate]
  · refine ⟨_, _, by unfold updateNodeStatusInDb; rw [if_pos h],
      by unfold updateNodeStatusInDb; rw [if_pos h], ?_⟩
    apply forall2_map_self
    intro a ha
    rcases List.mem_map.mp ha with ⟨r, _, rfl⟩
    cases hrb : (r.id == node_id) with
    | false => simp [hrb]
    | true => simp [hrb, terminusUpdate]

theorem transition_idempotent_witness :
    ∃ s1 s2, updateNodeStatusInDb [row0] "1" "paused" "" "T1" = Except.ok s1 ∧
      updateNodeStatusInDb s1 "1" "paused" "" "T2" = Except.ok s2 ∧
      List.Forall₂ (fun a b : NodeRow =>
        a.stage = b.stage ∧ a.status = b.status ∧ a.terminus = b.terminus) s1 s2 :=
  transition_idempotent [row0] "1" "paused" "" "" "T1" "T2" (Or.inr (Or.inl (by decide)))

/-- C3 counterexample: the CLI stage update (`update_status.py`, normal
branch) applied to a row whose terminus is `shipped` moves the stage and
forces `status = ready` but leaves `terminus = shipped`, while the claim
demands `terminus = null` after every stage-category transition on this
write path. -/
theorem cli_stage_keeps_terminus_counterexample :
    "concept" ∈ STAGE_VALUES ∧ "concept" ∈ VALID_STAGES ∧
    update_status [rowShipped] "1" "concept" none false "T" =
      Except.ok [{ id := "1", stage := "concept", status := "ready",
                   terminus := some "shipped", notes := "", human_review := 0,
                   updated_at := "T" }] :=
  ⟨by decide, by decide, rfl⟩

/-- C3 (amended): a stage-category transition through the GUI write path
(`_update_node_status_in_db`) forces `status = ready` and `terminus = null`
on the addressed row; the CLI stage update (`update_status.py`) forces
`status = ready` and sets the stage but leaves `terminus` unchanged. -/
theorem stage_transition_fields :
    (∀ (store : List NodeRow) (node_id new_status notes ts : String),
        new_status ∈ STAGE_VALUES →
        ∃ store', updateNodeStatusInDb store node_id new_status notes ts =
            Except.ok store' ∧
          List.Forall₂ (fun r r' : NodeRow =>
            (r.id = node_id → r'.stage = new_status ∧ r'.status = "ready" ∧
              r'.terminus = none) ∧
            (r.id ≠ node_id → r' = r)) store store') ∧
    (∀ (store : List NodeRow) (story_id new_stage : String) (notes : Option String)
        (ts : String) (row : NodeRow),
        new_stage ∈ VALID_STAGES →
        store.find? (fun r => r.id == story_id) = some row →
        ∃ store', update_status store story_id new_stage notes false ts =
            Except.ok store' ∧
          List.Forall₂ (fun r r' : NodeRow =>
            (r.id = story_id → r'.stage = new_stage ∧ r'.status = "ready" ∧
              r'.terminus = r.terminus) ∧
            (r.id ≠ story_id → r' = r)) store store') := by
  constructor
  · intro store node_id new_status notes ts h
    have h1 : new_status ∉ TERMINUS_VALUES := by
      have : ∀ s ∈ STAGE_VALUES, s ∉ TERMINUS_VALUES := by decide
      exact this _ h
    have h2 : new_status ∉ STATUS_VALUES_HOLDS := by
      have : ∀ s ∈ STAGE_VALUES, s ∉ STATUS_VALUES_HOLDS := by decide
      exact this _ h
    refine ⟨_, by unfold updateNodeStatusInDb; rw [if_neg h1, if_neg h2, if_pos h], ?_⟩
    apply forall2_map_self
    intro r _
    constructor
    · intro hid
      have hb : (r.id == node_id) = true := beq_iff_eq.mpr hid
      simp [hb, stageUpdate]
    · intro hid
      have hb : (r.id == node_id) = false := by simpa using hid
      simp [hb]
  · intro store story_id new_stage notes ts row hs hfind
    refine ⟨_, by unfold update_status; rw [if_neg (not_not_intro hs), hfind]; rfl, ?_⟩
    apply forall2_map_self
    intro r _
    constructor
    · intro hid
      have hb : (r.id == story_id) = true := beq_iff_eq.mpr hid
      simp [hb]
    · intro hid
      have hb : (r.id == story_id) = false := by simpa using hid
      simp [hb]

theorem stage_transition_fields_witness :
    ∃ store', updateNodeStatusInDb [row0] "1" "concept" "" "T" = Except.ok store' ∧
      List.Forall₂ (fun r r' : NodeRow =>
        (r.id = "1" → r'.stage = "concept" ∧ r'.status = "ready" ∧
          r'.terminus = none) ∧
        (r.id ≠ "1" → r' = r)) [row0] store' :=
  stage_transition_fields.1 [row0] "1" "concept" "" "T" (by decide)

/-- C4 counterexample: on the GUI write path a story id absent from the store
is not rejected: the operation completes as a success with the store
unchanged (status bar reports an update), no descriptive error is produced. -/
theorem missing_id_reports_success_counterexample :
    "shipped" ∈ TERMINUS_VALUES ∧
    (∀ r ∈ [rowShipped], r.id ≠ "2") ∧
    updateNodeStatusInDb [rowShipped] "2" "shipped" "" "T" = Except.ok [rowShipped] :=
  ⟨by decide, by decide, rfl⟩

/-- C4 (amended): an unrecognized target state is rejected with a descriptive
error before any mutation on both write paths, and a missing story id is
rejected with a descriptive error on the CLI path; on the GUI database path a
missing story id leaves the store unchanged but reports success rather than
an error. -/
theorem reject_invalid_target :
    (∀ (store : List NodeRow) (node_id new_status notes ts : String),
        new_status ∉ TERMINUS_VALUES → new_status ∉ STATUS_VALUES_HOLDS →
        new_status ∉ STAGE_VALUES →
        updateNodeStatusInDb store node_id new_status notes ts =
          Except.error ("Unknown status value: " ++ new_status)) ∧
    (∀ (store : List NodeRow) (story_id new_stage : String) (notes : Option String)
        (hold : Bool) (ts : String),
        new_stage ∉ VALID_STAGES →
        update_status store story_id new_stage notes hold ts =
          Except.error ("Invalid stage: " ++ new_stage)) ∧
    (∀ (store : List NodeRow) (story_id new_stage : String) (notes : Option String)
        (hold : Bool) (ts : String),
        new_stage ∈ VALID_STAGES →
        store.find? (fun r => r.id == story_id) = none →
        update_status store story_id new_stage notes hold ts =
          Except.error ("Story " ++ story_id ++ " not found")) := by
  refine ⟨?_, ?_, ?_⟩
  · intro store node_id new_status notes ts h1 h2 h3
    unfold updateNodeStatusInDb
    rw [if_neg h1, if_neg h2, if_neg h3]
  · intro store story_id new_stage notes hold ts h
    unfold update_status
    rw [if_pos h]
  · intro store story_id new_stage notes hold ts h hfind
    unfold update_status
    rw [if_neg (not_not_intro h), hfind]

theorem reject_invalid_target_witness :
    updateNodeStatusInDb [row0] "1" "bogus" "" "T" =
      Except.error ("Unknown status value: " ++ "bogus") :=
  reject_invalid_target.1 [row0] "1" "bogus" "" "T" (by decide) (by decide) (by decide)

theorem mem_insertByPath (x a : ONode) (l : List ONode) :
    a ∈ insertByPath x l ↔ a = x ∨ a ∈ l := by
  induction l with
  | nil => simp [insertByPath]
  | cons y ys ih =>
      unfold insertByPath
      by_cases h : y.story_path < x.story_path
      · rw [if_pos (by simpa using h)]
        simp only [List.mem_cons, ih]
        tauto
      · rw [if_neg (by simpa using h)]
        simp [List.mem_cons]

theorem mem_sortByPath (a : ONode) (l : List ONode) : a ∈ sortByPath l ↔ a ∈ l := by
  induction l with
  | nil => simp [sortByPath]
  | cons x xs ih =>
      simp only [sortByPath, List.foldr_cons] at ih ⊢
      rw [mem_insertByPath, ih, List.mem_cons]

/-- A tree whose mid-level node `1.1` has no closure rows at all: the code
reports exactly that node. -/
def stMid : OrphanStore :=
  { nodes := [⟨"root", "r", "epic", "ready", none⟩,
              ⟨"1", "a", "concept", "ready", none⟩,
              ⟨"1.1", "b", "concept", "ready", none⟩],
    paths := [⟨"root", "root", 0⟩, ⟨"1", "1", 0⟩, ⟨"root", "1", 1⟩] }

/-- A store whose node `1` kept only its depth-0 self closure row. -/
def stSelf : OrphanStore :=
  { nodes := [⟨"root", "r", "epic", "ready", none⟩,
              ⟨"1", "a", "concept", "ready", none⟩],
    paths := [⟨"root", "root", 0⟩, ⟨"1", "1", 0⟩] }

/-- C7 counterexample: node `1` appears as descendant in no closure row with
an ancestor other than itself (only its depth-0 self-row), so the claim says
the orphan listing returns exactly `[1]`, but the code's `NOT EXISTS` also
counts the self-row and returns nothing. -/
theorem self_row_only_counterexample :
    (∃ n ∈ stSelf.nodes, n.story_path = "1") ∧ ("1" : String) ≠ "root" ∧
    (∀ pr ∈ stSelf.paths, pr.descendant_id = "1" → pr.ancestor_id = "1") ∧
    listOrphansIds stSelf = [] :=
  ⟨by decide, by decide, by decide, rfl⟩

/-- C7 (amended): the orphan listing returns exactly the ids of the non-root
nodes that appear as `descendant_id` in no closure row at all (a node
retaining only its depth-0 self-row is not reported); on a tree where a
mid-level node's closure rows are entirely missing it returns exactly that
node's id. -/
theorem find_orphans_characterization :
    (∀ (st : OrphanStore) (x : String),
      x ∈ listOrphansIds st ↔
        ((∃ n ∈ st.nodes, n.story_path = x) ∧ x ≠ "root" ∧
          ∀ pr ∈ st.paths, pr.descendant_id ≠ x)) ∧
    listOrphansIds stMid = ["1.1"] := by
  constructor
  · intro st x
    have hbool : ∀ n : ONode,
        ((n.story_path != "root") &&
          !(st.paths.any fun pr => pr.descendant_id == n.story_path)) = true ↔
        (n.story_path ≠ "root" ∧ ∀ pr ∈ st.paths, pr.descendant_id ≠ n.story_path) := by
      intro n
      simp [List.any_eq_true]
    unfold listOrphansIds orphanRows
    rw [List.mem_map]
    constructor
    · rintro ⟨n, hn, rfl⟩
      rw [mem_sortByPath, List.mem_filter] at hn
      obtain ⟨hmem, hcond⟩ := hn
      obtain ⟨hne, hall⟩ := (hbool n).mp hcond
      exact ⟨⟨n, hmem, rfl⟩, hne, hall⟩
    · rintro ⟨⟨n, hn, rfl⟩, hne, hall⟩
      refine ⟨n, ?_, rfl⟩
      rw [mem_sortByPath, List.mem_filter]
      exact ⟨hn, (hbool n).mpr ⟨hne, hall⟩⟩
  · rfl

theorem find_orphans_characterization_witness :
    "1.1" ∈ listOrphansIds stMid :=
  (find_orphans_characterization.1 stMid "1.1").mpr (by decide)

/-- C8 counterexample: on a store with an orphan the orphan-listing tool
still exits 0 (`list_orphans.py` returns 0 on both branches), while the
claim demands exit code 1 when issues are found. -/
theorem orphan_exit_code_counterexample :
    listOrphansIds stMid = ["1.1"] ∧ listOrphansMain stMid false = 0 :=
  ⟨rfl, rfl⟩

/-- C8 (amended): the tree-health tool exits 0 exactly when the validator
reports no issues and 1 otherwise; the orphan-listing tool always exits 0,
whether or not orphans are found. -/
theorem exit_codes_amended :
    (∀ issues : List (String × List String),
        treeHealthMain issues = 0 ↔ totalIssues issues = 0) ∧
    (∀ (st : OrphanStore) (ids_only : Bool), listOrphansMain st ids_only = 0) := by
  constructor
  · intro issues
    unfold treeHealthMain
    by_cases h : totalIssues issues = 0 <;> simp [h]
  · intro st ids_only
    unfold listOrphansMain
    by_cases h : (orphanRows st).isEmpty <;> simp [h]

theorem exit_codes_amended_witness : listOrphansMain stMid true = 0 :=
  exit_codes_amended.2 stMid true

/-- C9: sibling ordering under `_sort_key`: `root` sorts before every other
id; ids whose dot-separated segments all parse as integers are compared by
the numeric tuple of their segments; ids with any non-numeric segment sort
after all numeric ids and among themselves in lexicographic string order;
and sorting `["2", "10", "1", "10.1"]` yields `["1", "2", "10", "10.1"]`. -/
theorem sort_key_order :
    (∀ i : String, i ≠ "root" → sKeyLt (sortKey "root") (sortKey i) = true) ∧
    (∀ a b : String, ∀ la lb : List Int, a ≠ "root" → b ≠ "root" →
        segsInt a = some la → segsInt b = some lb →
        sKeyLt (sortKey a) (sortKey b) = listIntLt la lb) ∧
    (∀ a b : String, ∀ la : List Int, a ≠ "root" → b ≠ "root" →
        segsInt a = some la → segsInt b = none →
        sKeyLt (sortKey a) (sortKey b) = true) ∧
    (∀ a b : String, a ≠ "root" → b ≠ "root" →
        segsInt a = none → segsInt b = none →
        (sKeyLt (sortKey a) (sortKey b) = true ↔ a < b)) ∧
    sortIds ["2", "10", "1", "10.1"] = ["1", "2", "10", "10.1"] := by
  refine ⟨?_, ?_, ?_, ?_, by decide⟩
  · intro i hi
    simp only [sortKey, if_neg hi]
    cases hseg : segsInt i <;> simp [sKeyLt]
  · intro a b la lb ha hb hsa hsb
    simp only [sortKey, if_neg ha, if_neg hb, hsa, hsb]
    rfl
  · intro a b la ha hb hsa hsb
    simp only [sortKey, if_neg ha, if_neg hb, hsa, hsb]
    rfl
  · intro a b ha hb hsa hsb
    simp only [sortKey, if_neg ha, if_neg hb, hsa, hsb]
    exact decide_eq_true_iff

theorem sort_key_order_witness :
    sKeyLt (sortKey "root") (sortKey "10.1") = true ∧
    sKeyLt (sortKey "2") (sortKey "10") = listIntLt [2] [10] ∧
    sKeyLt (sortKey "2") (sortKey "a.b") = true ∧
    (sKeyLt (sortKey "a") (sortKey "b") = true ↔ "a" < "b") :=
  ⟨sort_key_order.1 "10.1" (by decide),
   sort_key_order.2.1 "2" "10" [2] [10] (by decide) (by decide) (by decide) (by decide),
   sort_key_order.2.2.1 "2" "a.b" [2] (by decide) (by decide) (by decide) (by decide),
   sort_key_order.2.2.2.1 "a" "b" (by decide) (by decide) (by decide) (by decide)⟩

theorem mem_ancestors_step (store : List VNode) :
    ∀ (fuel : Nat) (cur : Option VNode) (x : String) (nx : VNode) (p : String),
      x ∈ getAncestorsAux store cur fuel →
      findNode store x = some nx → truthyParent nx = some p →
      p ∈ getAncestorsAux store cur (fuel + 1) := by
  intro fuel
  induction fuel with
  | zero =>
      intro cur x nx p hx _ _
      simp [getAncestorsAux] at hx
  | succ k ih =>
      intro cur x nx p hx hfind hpar
      cases cur with
      | none => simp [getAncestorsAux] at hx
      | some m =>
          cases hpm : truthyParent m with
          | none => simp [getAncestorsAux, hpm] at hx
          | some q =>
              simp only [getAncestorsAux, hpm, List.mem_cons] at hx
              simp only [getAncestorsAux, hpm, List.mem_cons]
              rcases hx with rfl | hx
              · right
                rw [hfind]
                simp [getAncestorsAux, hpar]
              · exact Or.inr (ih (findNode store q) x nx p hx hfind hpar)

theorem ancestors_fuel_stable (store : List VNode) (d : String → Nat)
    (hpar : ∀ n ∈ store, ∀ p, truthyParent n = some p →
      ∃ q, findNode store p = some q ∧ d p < d n.id) :
    ∀ (fuel : Nat) (n : VNode), n ∈ store → d n.id + 1 ≤ fuel →
      getAncestorsAux store (some n) fuel = getAncestorsAux store (some n) (fuel + 1) := by
  intro fuel
  induction fuel with
  | zero =>
      intro n _ h
      exact absurd h (by omega)
  | succ k ih =>
      intro n hn h
      cases hpm : truthyParent n with
      | none => simp [getAncestorsAux, hpm]
      | some p =>
          obtain ⟨q, hq, hd⟩ := hpar n hn p hpm
          have hqmem : q ∈ store := List.mem_of_find?_eq_some hq
          have hqid : q.id = p := by
            have := List.find?_some hq
            simpa using this
          simp only [getAncestorsAux, hpm, hq]
          rw [ih q hqmem (by rw [hqid]; omega)]
          rfl

theorem ancestors_fuel_stable_add (store : List VNode) (d : String → Nat)
    (hpar : ∀ n ∈ store, ∀ p, truthyParent n = some p →
      ∃ q, findNode store p = some q ∧ d p < d n.id) :
    ∀ (j fuel : Nat) (n : VNode), n ∈ store → d n.id + 1 ≤ fuel →
      getAncestorsAux store (some n) fuel = getAncestorsAux store (some n) (fuel + j) := by
  intro j
  induction j with
  | zero => intro fuel n _ _; rfl
  | succ k ih =>
      intro fuel n hn h
      rw [ih fuel n hn h,
        ancestors_fuel_stable store d hpar (fuel + k) n hn (by omega)]
      rfl

theorem mem_fold_ancestors (store : List VNode) (l : List String) (i x : String)
    (hi : i ∈ l) (hx : x ∈ getAncestors store i) :
    x ∈ l.foldr (fun j acc => getAncestors store j ++ acc) [] := by
  induction l with
  | nil => cases hi
  | cons a as ih =>
      simp only [List.foldr_cons, List.mem_append]
      rcases List.mem_cons.mp hi with rfl | h
      · exact Or.inl hx
      · exact Or.inr (ih h)

theorem mem_fold_ancestors_inv (store : List VNode) (l : List String) (x : String)
    (hx : x ∈ l.foldr (fun j acc => getAncestors store j ++ acc) []) :
    ∃ i ∈ l, x ∈ getAncestors store i := by
  induction l with
  | nil => cases hx
  | cons a as ih =>
      simp only [List.foldr_cons, List.mem_append] at hx
      rcases hx with h | h
      · exact ⟨a, by simp, h⟩
      · obtain ⟨i, hi, hxi⟩ := ih h
        exact ⟨i, by simp [hi], hxi⟩

/-- C10: under a well-formed store (every truthy parent pointer resolves to a
node of strictly smaller depth, depths bounded by the store size), the
visible set computed by `_apply_filters` is the matching set united with the
ancestors of matching nodes and is closed under the parent relation — the
parent of every visible node is visible — and the faded set is exactly the
visible nodes that match no filter themselves. -/
theorem apply_filters_visibility
    (store : List VNode) (cfg : FilterConfig) (d : String → Nat)
    (hpar : ∀ n ∈ store, ∀ p, truthyParent n = some p →
      ∃ q, findNode store p = some q ∧ d p < d n.id)
    (hbound : ∀ n ∈ store, d n.id ≤ store.length)
    (x : String) (nx : VNode) (p : String)
    (hx : x ∈ visibleIds store cfg)
    (hfind : findNode store x = some nx)
    (hp : truthyParent nx = some p) :
    p ∈ visibleIds store cfg ∧
    (∀ y, y ∈ fadedIds store cfg ↔
      (y ∈ visibleIds store cfg ∧ y ∉ matchingIds store cfg)) := by
  constructor
  · rcases List.mem_append.mp hx with hmatch | hanc
    · have hpx : p ∈ getAncestors store x := by
        unfold getAncestors
        rw [hfind]
        simp [getAncestorsAux, hp]
      exact List.mem_append.mpr
        (Or.inr (mem_fold_ancestors store _ x p hmatch hpx))
    · obtain ⟨m, hm, hxm⟩ := mem_fold_ancestors_inv store _ x hanc
      have hstep := mem_ancestors_step store (store.length + 1)
        (findNode store m) x nx p (by simpa [getAncestors] using hxm) hfind hp
      have hpm : p ∈ getAncestors store m := by
        cases hfm : findNode store m with
        | none =>
            rw [getAncestors, hfm] at hxm
            simp [getAncestorsAux] at hxm
        | some nm =>
            have hnm : nm ∈ store := List.mem_of_find?_eq_some hfm
            have hstable := ancestors_fuel_stable store d hpar (store.length + 1) nm hnm
              (by have := hbound nm hnm; omega)
            rw [hfm] at hstep
            rw [getAncestors, hfm, hstable]
            exact hstep
      exact List.mem_append.mpr (Or.inr (mem_fold_ancestors store _ m p hm hpm))
  · intro y
    unfold fadedIds visibleIds
    constructor
    · intro hy
      rw [List.mem_filter] at hy
      obtain ⟨hmem, hcond⟩ := hy
      have hnot : y ∉ matchingIds store cfg := by simpa using hcond
      exact ⟨List.mem_append.mpr (Or.inr hmem), hnot⟩
    · rintro ⟨hvis, hnot⟩
      rw [List.mem_filter]
      rcases List.mem_append.mp hvis with h | h
      · exact absurd h hnot
      · exact ⟨h, by simpa using hnot⟩

/-- Concrete nodes for the filter-visibility witness. -/
def nodeRootW : VNode :=
  { id := "root", parent_id := none, stage := "epic", status := "ready", terminus := none }

/-- Child node of `nodeRootW`. -/
def node1W : VNode :=
  { id := "1", parent_id := some "root", stage := "concept", status := "ready", terminus := none }

/-- A two-node store: a root and one child. -/
def storeW : List VNode := [nodeRootW, node1W]

/-- A filter configuration matching only the child. -/
def cfgW : FilterConfig :=
  { checkedStages := ["concept"], checkedStatuses := ["ready"], checkedTermini := ["active"] }

/-- Depth measure for `storeW`. -/
def dW : String → Nat := fun s => if s = "root" then 0 else 1

theorem apply_filters_visibility_witness : "root" ∈ visibleIds storeW cfgW :=
  (apply_filters_visibility storeW cfgW dW
    (by
      intro n hn p hp
      simp only [storeW, List.mem_cons, List.not_mem_nil, or_false] at hn
      rcases hn with rfl | rfl
      · simp [truthyParent, nodeRootW] at hp
      · have hp' : "root" = p := by simpa [truthyParent, node1W] using hp
        subst hp'
        exact ⟨nodeRootW, rfl, by decide⟩)
    (by
      intro n hn
      simp only [storeW, List.mem_cons, List.not_mem_nil, or_false] at hn
      rcases hn with rfl | rfl <;> decide)
    "1" node1W "root" (by decide) rfl rfl).1

end StoryTree
